import Mathlib

/-!
Verification of `src/database_creator/combine_csv.py` (repository atef1995/sayarat).

The script scans the years 1992..2026, reads each present file `{year}.csv`
from a fixed folder with `pd.read_csv`, forces the `year` column of the parsed
frame to the filename year, collects the frames, raises `FileNotFoundError`
when none were found, and otherwise concatenates them and replace-writes the
result into the `all_cars` table of a SQLite store, after a
`CREATE TABLE IF NOT EXISTS` with a declared four-column schema.

Shallow embedding: a pandas DataFrame is a column-name list plus rows that are
association lists from column name to cell value; the CSV directory is a map
from file path to file contents (parsed frame, or a marker for an unparseable
file); the SQLite store is an association list from table name to table; the
observable side effects (console prints, connect, create, bulk write, commit,
close) form an event trace.
-/

namespace CombineCsv

/-- A cell value of a frame: an integer, a text, or the missing marker that
pandas inserts when concatenated frames disagree on columns. -/
inductive Value where
  | int (i : Int)
  | str (s : String)
  | nan
deriving DecidableEq, Repr

/-- A row keyed by column name, as pandas addresses cells. -/
abbrev Row := List (String × Value)

/-- A pandas DataFrame: ordered column names and the ordered rows. -/
structure DataFrame where
  cols : List String
  rows : List Row
deriving DecidableEq, Repr

/-- First-match lookup of a cell in a row. -/
def getVal (c : String) : Row → Option Value
  | [] => none
  | (k, w) :: r => if k = c then some w else getVal c r

/-- Overwrite (or append) the binding of column `c` in one row. -/
def setVal (c : String) (v : Value) : Row → Row
  | [] => [(c, v)]
  | (k, w) :: r => if k = c then (k, v) :: r else (k, w) :: setVal c v r

/-- The assignment `df[c] = v`: every row gets the value, and the column list
keeps its order, appending `c` only when it was absent. -/
def DataFrame.setCol (df : DataFrame) (c : String) (v : Value) : DataFrame :=
  { cols := if c ∈ df.cols then df.cols else df.cols ++ [c],
    rows := df.rows.map (setVal c v) }

/-- The members of `cs` that are not yet in `acc`, in order. -/
def filterNew (acc : List String) : List String → List String
  | [] => []
  | c :: cs => if c ∈ acc then filterNew acc cs else c :: filterNew acc cs

/-- Union of the column lists of the frames, in order of first appearance,
as `pd.concat` aligns columns. -/
def unionColsAux (acc : List String) : List DataFrame → List String
  | [] => acc
  | df :: dfs => unionColsAux (acc ++ filterNew acc df.cols) dfs

def unionColsList (dfs : List DataFrame) : List String :=
  unionColsAux [] dfs

/-- Re-key one row onto the full column list, filling absent columns with
the missing marker. -/
def alignRow (cols : List String) (r : Row) : Row :=
  cols.map (fun c => (c, (getVal c r).getD Value.nan))

/-- The rows of the frames in order, each aligned to the union columns. -/
def chunksRows (cols : List String) : List DataFrame → List Row
  | [] => []
  | df :: dfs => df.rows.map (alignRow cols) ++ chunksRows cols dfs

/-- `pd.concat(dfs, ignore_index=True)`: union the columns, stack the rows. -/
def concatDFs (dfs : List DataFrame) : DataFrame :=
  { cols := unionColsList dfs, rows := chunksRows (unionColsList dfs) dfs }

/-- The contents found at a candidate path: a frame that `pd.read_csv`
produces, or an unparseable file on which `pd.read_csv` raises. -/
inductive FileData where
  | parsed (df : DataFrame)
  | malformed
deriving DecidableEq, Repr

/-- The source directory, as the files reachable by path. -/
abbrev Dir := String → Option FileData

/-- The output store: tables by name. -/
abbrev Store := List (String × DataFrame)

def getTable : Store → String → Option DataFrame
  | [], _ => none
  | (k, t) :: s, n => if k = n then some t else getTable s n

/-- `CREATE TABLE IF NOT EXISTS`: when the table is absent, add it empty with
the declared columns; when present, leave the store unchanged. -/
def createTableIfNotExists (s : Store) (n : String) (cs : List String) : Store :=
  match getTable s n with
  | some _ => s
  | none => s ++ [(n, { cols := cs, rows := [] })]

/-- `to_sql(..., if_exists=replace)`: drop whatever the table held, schema
included, and store the frame as the table. -/
def setTable : Store → String → DataFrame → Store
  | [], n, t => [(n, t)]
  | (k, u) :: s, n, t => if k = n then (n, t) :: s else (k, u) :: setTable s n t

/-- One observable effect of the run. -/
inductive Event where
  | consoleOut (s : String)
  | connect (path : String)
  | createTable
  | writeTable (name : String) (df : DataFrame)
  | commit
  | close
deriving DecidableEq, Repr

/-- Why a run aborts. -/
inductive Err where
  | noDataFound
  | parseError (year : Int)
deriving DecidableEq, Repr

def csv_folder : String := "./us_car_models_data_master"

def output_db : String := "./cars.db"

/-- `os.path.join(csv_folder, f"{year}.csv")`. -/
def file_path (year : Int) : String :=
  csv_folder ++ "/" ++ toString year ++ ".csv"

/-- `range(1992, 2027)`: the years 1992..2026 in ascending order. -/
def scannedYears : List Int :=
  (List.range 35).map (fun i : Nat => (1992 : Int) + (i : Int))

def skipMsg (year : Int) : String :=
  "File " ++ toString year ++ ".csv not found, skipping."

def doneMsg : String :=
  "All cars data merged and stored in " ++ output_db ++ " as all_cars."

/-- The declared columns of the `CREATE TABLE` statement. -/
def declaredCols : List String := ["year", "make", "model", "body_styles"]

/-- The scan loop over the years: a missing file prints a skip notice, a
present file is parsed and its `year` column forced to the loop year, an
unparseable file raises at once. Returns the events emitted so far and
either the collected frames or the error. -/
def processYears (dir : Dir) : List Int → List Event × Except Err (List DataFrame)
  | [] => ([], .ok [])
  | y :: ys =>
    match dir (file_path y) with
    | some (.parsed df) =>
      let (evs, res) := processYears dir ys
      (evs, match res with
            | .ok dfs => .ok (df.setCol "year" (.int y) :: dfs)
            | .error e => .error e)
    | some .malformed => ([], .error (.parseError y))
    | none =>
      let (evs, res) := processYears dir ys
      (.consoleOut (skipMsg y) :: evs, res)

/-- Outcome of one run: the event trace, the store as the run left it, and
whether it completed or raised. -/
structure RunResult where
  trace : List Event
  store : Store
  outcome : Except Err Unit

/-- The whole script, from the initial store state. -/
def runScript (dir : Dir) (store : Store) : RunResult :=
  match processYears dir scannedYears with
  | (evs, .error e) => { trace := evs, store := store, outcome := .error e }
  | (evs, .ok dfs) =>
    if dfs.isEmpty then
      { trace := evs, store := store, outcome := .error .noDataFound }
    else
      let combined := concatDFs dfs
      { trace := evs ++
          [.connect output_db, .createTable,
           .writeTable "all_cars" combined, .commit, .close,
           .consoleOut doneMsg],
        store := setTable (createTableIfNotExists store "all_cars" declaredCols)
                    "all_cars" combined,
        outcome := .ok () }

/-- Whether `{y}.csv` is present and parseable. -/
def isPresent (dir : Dir) (y : Int) : Bool :=
  match dir (file_path y) with
  | some (.parsed _) => true
  | _ => false

/-- Whether `{y}.csv` is absent. -/
def isMissing (dir : Dir) (y : Int) : Bool :=
  match dir (file_path y) with
  | none => true
  | _ => false

/-- The scanned years whose file is present, in ascending order. -/
def foundYears (dir : Dir) : List Int :=
  scannedYears.filter (fun y => isPresent dir y)

/-- The parsed frame of `{y}.csv` (junk default when absent). -/
def parsedAt (dir : Dir) (y : Int) : DataFrame :=
  match dir (file_path y) with
  | some (.parsed df) => df
  | _ => { cols := [], rows := [] }

/-- The contribution of year `y`: its parsed frame with the `year` column
forced to `y`. -/
def chunkDF (dir : Dir) (y : Int) : DataFrame :=
  (parsedAt dir y).setCol "year" (.int y)

/-- The combined frame the run writes. -/
def combinedDF (dir : Dir) : DataFrame :=
  concatDFs ((foundYears dir).map (chunkDF dir))

/-- No scanned file is unparseable. -/
def noMalformed (dir : Dir) : Prop :=
  ∀ y ∈ scannedYears, dir (file_path y) ≠ some .malformed

/-- The skip notices of the missing scanned years, in order. -/
def skipEvents (dir : Dir) (ys : List Int) : List Event :=
  (ys.filter (fun y => isMissing dir y)).map (fun y => .consoleOut (skipMsg y))

/-- Occurrences of an event in a trace. -/
def countEv (e : Event) : List Event → Nat
  | [] => 0
  | x :: xs => (if x = e then 1 else 0) + countEv e xs

/-- The rows contributed by the listed years in order, aligned to `cols`. -/
def rowsByYear (dir : Dir) (cols : List String) : List Int → List Row
  | [] => []
  | y :: ys => (chunkDF dir y).rows.map (alignRow cols) ++ rowsByYear dir cols ys

/-! ### Lemmas about rows and frames -/

theorem getVal_setVal_self (c : String) (v : Value) (r : Row) :
    getVal c (setVal c v r) = some v := by
  induction r with
  | nil => simp [setVal, getVal]
  | cons kv r ih =>
    obtain ⟨k, w⟩ := kv
    by_cases h : k = c
    · subst h; simp [setVal, getVal]
    · simp [setVal, getVal, h, ih]

theorem getVal_setVal_ne (k c : String) (hk : k ≠ c) (v : Value) (r : Row) :
    getVal k (setVal c v r) = getVal k r := by
  induction r with
  | nil => simp [setVal, getVal, Ne.symm hk]
  | cons kv r ih =>
    obtain ⟨k', w⟩ := kv
    by_cases h : k' = c
    · subst h; simp [setVal, getVal, Ne.symm hk]
    · by_cases h2 : k' = k <;> simp [setVal, getVal, h, h2, hk, ih]

theorem setCol_rows (df : DataFrame) (c : String) (v : Value) :
    (df.setCol c v).rows = df.rows.map (setVal c v) := rfl

theorem getVal_of_mem_setCol_rows (df : DataFrame) (c : String) (v : Value)
    (r : Row) (hr : r ∈ (df.setCol c v).rows) : getVal c r = some v := by
  rw [setCol_rows, List.mem_map] at hr
  obtain ⟨r0, _, rfl⟩ := hr
  exact getVal_setVal_self c v r0

theorem mem_setCol_cols_iff (df : DataFrame) (c k : String) (v : Value) :
    k ∈ (df.setCol c v).cols ↔ k ∈ df.cols ∨ k = c := by
  unfold DataFrame.setCol
  by_cases h : c ∈ df.cols
  · simp only [h, if_true]
    constructor
    · exact Or.inl
    · rintro (hk | rfl)
      · exact hk
      · exact h
  · simp [h]

theorem self_mem_setCol_cols (df : DataFrame) (c : String) (v : Value) :
    c ∈ (df.setCol c v).cols := by
  rw [mem_setCol_cols_iff]; exact Or.inr rfl

theorem getVal_alignRow_of_mem (cols : List String) (c : String)
    (hc : c ∈ cols) (r : Row) :
    getVal c (alignRow cols r) = some ((getVal c r).getD Value.nan) := by
  induction cols with
  | nil => cases hc
  | cons c0 cs ih =>
    by_cases h : c0 = c
    · subst h; simp [alignRow, getVal]
    · have hc' : c ∈ cs := by
        cases hc with
        | head => exact absurd rfl h
        | tail _ hm => exact hm
      simp [alignRow, getVal, h]
      exact ih hc'

theorem mem_filterNew (acc l : List String) (c : String) :
    c ∈ filterNew acc l ↔ c ∈ l ∧ c ∉ acc := by
  induction l with
  | nil => simp [filterNew]
  | cons x xs ih =>
    by_cases h : x ∈ acc
    · simp only [filterNew, h, if_true, ih]
      constructor
      · rintro ⟨hm, hn⟩; exact ⟨List.mem_cons_of_mem _ hm, hn⟩
      · rintro ⟨hm, hn⟩
        cases hm with
        | head => exact absurd h hn
        | tail _ hm => exact ⟨hm, hn⟩
    · simp only [filterNew, h, if_false, List.mem_cons, ih]
      constructor
      · rintro (rfl | ⟨hm, hn⟩)
        · exact ⟨Or.inl rfl, h⟩
        · exact ⟨Or.inr hm, hn⟩
      · rintro ⟨rfl | hm, hn⟩
        · exact Or.inl rfl
        · exact Or.inr ⟨hm, hn⟩

theorem mem_unionColsAux (dfs : List DataFrame) :
    ∀ (acc : List String) (c : String),
      c ∈ unionColsAux acc dfs ↔ c ∈ acc ∨ ∃ df ∈ dfs, c ∈ df.cols := by
  induction dfs with
  | nil => intro acc c; simp [unionColsAux]
  | cons df dfs ih =>
    intro acc c
    simp only [unionColsAux, ih, List.mem_append, mem_filterNew, List.mem_cons]
    constructor
    · rintro ((h | ⟨h1, h2⟩) | ⟨d, hd, hc⟩)
      · exact Or.inl h
      · exact Or.inr ⟨df, Or.inl rfl, h1⟩
      · exact Or.inr ⟨d, Or.inr hd, hc⟩
    · rintro (h | ⟨d, (rfl | hd), hc⟩)
      · exact Or.inl (Or.inl h)
      · by_cases ha : c ∈ acc
        · exact Or.inl (Or.inl ha)
        · exact Or.inl (Or.inr ⟨hc, ha⟩)
      · exact Or.inr ⟨d, hd, hc⟩

theorem mem_unionColsList (dfs : List DataFrame) (c : String) :
    c ∈ unionColsList dfs ↔ ∃ df ∈ dfs, c ∈ df.cols := by
  unfold unionColsList
  rw [mem_unionColsAux]
  simp

theorem chunksRows_map_chunk (dir : Dir) (cols : List String) (ys : List Int) :
    chunksRows cols (ys.map (chunkDF dir)) = rowsByYear dir cols ys := by
  induction ys with
  | nil => rfl
  | cons y ys ih => simp [chunksRows, rowsByYear, ih]

theorem mem_rowsByYear_of (dir : Dir) (cols : List String) (ys : List Int)
    (y : Int) (hy : y ∈ ys) (x : Row)
    (hx : x ∈ (chunkDF dir y).rows.map (alignRow cols)) :
    x ∈ rowsByYear dir cols ys := by
  induction ys with
  | nil => cases hy
  | cons z ys ih =>
    rw [rowsByYear, List.mem_append]
    cases hy with
    | head => exact Or.inl hx
    | tail _ hm => exact Or.inr (ih hm)

/-! ### Structure of the scan loop and of the whole run -/

theorem skipEvents_nil (dir : Dir) : skipEvents dir [] = [] := rfl

theorem skipEvents_cons (dir : Dir) (y : Int) (ys : List Int) :
    skipEvents dir (y :: ys) =
      if isMissing dir y then
        Event.consoleOut (skipMsg y) :: skipEvents dir ys
      else skipEvents dir ys := by
  unfold skipEvents
  by_cases h : isMissing dir y = true <;> simp [List.filter_cons, h]

theorem processYears_ok (dir : Dir) :
    ∀ ys : List Int, (∀ y ∈ ys, dir (file_path y) ≠ some .malformed) →
      processYears dir ys =
        (skipEvents dir ys,
         .ok ((ys.filter (fun y => isPresent dir y)).map (chunkDF dir))) := by
  intro ys
  induction ys with
  | nil => intro _; rfl
  | cons y ys ih =>
    intro h
    have hy := h y (List.mem_cons_self y ys)
    have ih' := ih (fun z hz => h z (List.mem_cons_of_mem _ hz))
    cases hc : dir (file_path y) with
    | none =>
      have hm : isMissing dir y = true := by simp [isMissing, hc]
      have hp : isPresent dir y = false := by simp [isPresent, hc]
      simp [processYears, hc, ih', skipEvents_cons, hm, hp, List.filter_cons]
    | some fd =>
      cases fd with
      | parsed df =>
        have hm : isMissing dir y = false := by simp [isMissing, hc]
        have hp : isPresent dir y = true := by simp [isPresent, hc]
        have hpa : parsedAt dir y = df := by simp [parsedAt, hc]
        simp [processYears, hc, ih', skipEvents_cons, hm, hp,
          List.filter_cons, chunkDF, hpa]
      | malformed => exact absurd hc hy

theorem processYears_error (dir : Dir) :
    ∀ ys : List Int, (∃ y ∈ ys, dir (file_path y) = some .malformed) →
      ∃ evs y, processYears dir ys = (evs, .error (.parseError y)) ∧
        dir (file_path y) = some .malformed := by
  intro ys
  induction ys with
  | nil => rintro ⟨y, hy, _⟩; cases hy
  | cons z ys ih =>
    rintro ⟨y, hy, hmal⟩
    cases hc : dir (file_path z) with
    | some fd =>
      cases fd with
      | malformed => exact ⟨[], z, by simp [processYears, hc], hc⟩
      | parsed df =>
        have hy' : y ∈ ys := by
          cases hy with
          | head => rw [hc] at hmal; simp at hmal
          | tail _ hm => exact hm
        obtain ⟨evs, y', heq, hmal'⟩ := ih ⟨y, hy', hmal⟩
        exact ⟨evs, y', by simp [processYears, hc, heq], hmal'⟩
    | none =>
      have hy' : y ∈ ys := by
        cases hy with
        | head => rw [hc] at hmal; simp at hmal
        | tail _ hm => exact hm
      obtain ⟨evs, y', heq, hmal'⟩ := ih ⟨y, hy', hmal⟩
      exact ⟨.consoleOut (skipMsg z) :: evs, y',
        by simp [processYears, hc, heq], hmal'⟩

theorem processYears_trace (dir : Dir) :
    ∀ ys : List Int, ∀ e ∈ (processYears dir ys).1,
      ∃ y ∈ ys, e = .consoleOut (skipMsg y) := by
  intro ys
  induction ys with
  | nil => intro e he; simp [processYears] at he
  | cons y ys ih =>
    intro e he
    rcases hps : processYears dir ys with ⟨evs, res⟩
    cases hc : dir (file_path y) with
    | none =>
      simp only [processYears, hc, hps, List.mem_cons] at he
      rcases he with he | he
      · exact ⟨y, List.mem_cons_self y ys, he⟩
      · obtain ⟨z, hz, hez⟩ := ih e (by rw [hps]; exact he)
        exact ⟨z, List.mem_cons_of_mem _ hz, hez⟩
    | some fd =>
      cases fd with
      | parsed df =>
        simp only [processYears, hc, hps] at he
        obtain ⟨z, hz, hez⟩ := ih e (by rw [hps]; exact he)
        exact ⟨z, List.mem_cons_of_mem _ hz, hez⟩
      | malformed => simp [processYears, hc] at he

/-- The trailing events of a completed run. -/
def tailEvents (dir : Dir) : List Event :=
  [.connect output_db, .createTable,
   .writeTable "all_cars" (combinedDF dir), .commit, .close,
   .consoleOut doneMsg]

theorem runScript_eq_ok (dir : Dir) (s : Store)
    (hm : noMalformed dir) (hne : foundYears dir ≠ []) :
    runScript dir s =
      { trace := skipEvents dir scannedYears ++ tailEvents dir,
        store := setTable (createTableIfNotExists s "all_cars" declaredCols)
                   "all_cars" (combinedDF dir),
        outcome := .ok () } := by
  have hps := processYears_ok dir scannedYears hm
  have hemp : ((foundYears dir).map (chunkDF dir)).isEmpty = false := by
    cases hfy : foundYears dir with
    | nil => exact absurd hfy hne
    | cons a l => simp
  unfold runScript
  rw [hps]
  simp only [foundYears] at hemp ⊢
  simp [hemp, combinedDF, tailEvents, foundYears]

theorem runScript_noData (dir : Dir) (s : Store)
    (hm : noMalformed dir) (hfe : foundYears dir = []) :
    runScript dir s =
      { trace := skipEvents dir scannedYears, store := s,
        outcome := .error .noDataFound } := by
  have hps := processYears_ok dir scannedYears hm
  have hemp : ((foundYears dir).map (chunkDF dir)).isEmpty = true := by
    rw [hfe]; rfl
  unfold runScript
  rw [hps]
  simp only [foundYears] at hemp ⊢
  simp [hemp]

theorem runScript_malformed (dir : Dir) (s : Store)
    (h : ∃ y ∈ scannedYears, dir (file_path y) = some .malformed) :
    ∃ evs y, runScript dir s =
        { trace := evs, store := s, outcome := .error (.parseError y) } ∧
      dir (file_path y) = some .malformed ∧
      ∀ e ∈ evs, ∃ z ∈ scannedYears, e = .consoleOut (skipMsg z) := by
  obtain ⟨evs, y, heq, hmal⟩ := processYears_error dir scannedYears h
  refine ⟨evs, y, ?_, hmal, ?_⟩
  · unfold runScript; rw [heq]
  · intro e he
    exact processYears_trace dir scannedYears e (by rw [heq]; exact he)

theorem runScript_ok_inv (dir : Dir) (s : Store)
    (h : (runScript dir s).outcome = .ok ()) :
    noMalformed dir ∧ foundYears dir ≠ [] := by
  by_cases hm : noMalformed dir
  · refine ⟨hm, fun hfe => ?_⟩
    rw [runScript_noData dir s hm hfe] at h
    simp at h
  · exfalso
    unfold noMalformed at hm
    push_neg at hm
    obtain ⟨evs, y, heq, _, _⟩ := runScript_malformed dir s hm
    rw [heq] at h
    simp at h

theorem getTable_setTable_self (s : Store) (n : String) (t : DataFrame) :
    getTable (setTable s n t) n = some t := by
  induction s with
  | nil => simp [setTable, getTable]
  | cons kv s ih =>
    obtain ⟨k, u⟩ := kv
    by_cases h : k = n <;> simp [setTable, getTable, h, ih]

theorem getTable_runScript_ok (dir : Dir) (s : Store)
    (hm : noMalformed dir) (hne : foundYears dir ≠ []) :
    getTable (runScript dir s).store "all_cars" = some (combinedDF dir) := by
  rw [runScript_eq_ok dir s hm hne]
  exact getTable_setTable_self _ _ _

/-! ### Counting skip notices -/

theorem countEv_append (e : Event) (a b : List Event) :
    countEv e (a ++ b) = countEv e a + countEv e b := by
  induction a with
  | nil => simp [countEv]
  | cons x xs ih => simp [countEv, ih]; omega

theorem scannedYears_nodup : scannedYears.Nodup := by decide

theorem scannedYears_sorted :
    List.Pairwise (fun a b : Int => a < b) scannedYears := by decide

theorem skipMsg_inj_on_scanned :
    ∀ a ∈ scannedYears, ∀ b ∈ scannedYears, a ≠ b → skipMsg a ≠ skipMsg b := by
  decide

theorem skipMsg_ne_doneMsg_on_scanned :
    ∀ y ∈ scannedYears, skipMsg y ≠ doneMsg := by decide

theorem countEv_skipEvents_zero (dir : Dir) (y : Int) :
    ∀ ys : List Int, (∀ z ∈ ys, skipMsg z ≠ skipMsg y) →
      countEv (.consoleOut (skipMsg y)) (skipEvents dir ys) = 0 := by
  intro ys
  induction ys with
  | nil => intro _; rfl
  | cons z ys ih =>
    intro h
    have hz := h z (List.mem_cons_self z ys)
    have ih' := ih (fun w hw => h w (List.mem_cons_of_mem _ hw))
    rw [skipEvents_cons]
    by_cases hmz : isMissing dir z = true
    · simp [hmz, countEv, hz, ih']
    · simp [hmz, ih']

theorem countEv_skipEvents_one (dir : Dir) (y : Int) :
    ∀ ys : List Int, ys.Nodup → y ∈ ys → isMissing dir y = true →
      (∀ z ∈ ys, z = y ∨ skipMsg z ≠ skipMsg y) →
      countEv (.consoleOut (skipMsg y)) (skipEvents dir ys) = 1 := by
  intro ys
  induction ys with
  | nil => intro _ hy; cases hy
  | cons z ys ih =>
    intro hnd hy hmiss hdist
    obtain ⟨hzn, hnd'⟩ := List.nodup_cons.mp hnd
    rw [skipEvents_cons]
    by_cases hzy : z = y
    · subst hzy
      have hzero : countEv (.consoleOut (skipMsg z)) (skipEvents dir ys) = 0 := by
        apply countEv_skipEvents_zero
        intro w hw
        have hwz : w ≠ z := fun he => hzn (he ▸ hw)
        exact (hdist w (List.mem_cons_of_mem _ hw)).resolve_left hwz
      simp [hmiss, countEv, hzero]
    · have hne : skipMsg z ≠ skipMsg y :=
        (hdist z (List.mem_cons_self z ys)).resolve_left hzy
      have hy' : y ∈ ys := by
        cases hy with
        | head => exact absurd rfl hzy
        | tail _ hm => exact hm
      have ih' := ih hnd' hy' hmiss
        (fun w hw => hdist w (List.mem_cons_of_mem _ hw))
      by_cases hmz : isMissing dir z = true
      · simp [hmz, countEv, hne, ih']
      · simp [hmz, ih']

theorem countEv_tailEvents (dir : Dir) (y : Int) (hy : y ∈ scannedYears) :
    countEv (.consoleOut (skipMsg y)) (tailEvents dir) = 0 := by
  have hne := (skipMsg_ne_doneMsg_on_scanned y hy).symm
  simp [tailEvents, countEv, hne]

theorem mem_skipEvents (dir : Dir) (ys : List Int) (e : Event)
    (h : e ∈ skipEvents dir ys) : ∃ y ∈ ys, e = .consoleOut (skipMsg y) := by
  unfold skipEvents at h
  rw [List.mem_map] at h
  obtain ⟨y, hy, rfl⟩ := h
  exact ⟨y, (List.mem_filter.mp hy).1, rfl⟩

/-! ### Helpers for singleton scans -/

theorem filter_eq_nil_of {p : Int → Bool} :
    ∀ ys : List Int, (∀ z ∈ ys, p z = false) → ys.filter p = [] := by
  intro ys
  induction ys with
  | nil => intro _; rfl
  | cons z ys ih =>
    intro h
    rw [List.filter_cons]
    simp [h z (List.mem_cons_self z ys),
      ih (fun w hw => h w (List.mem_cons_of_mem _ hw))]

theorem filter_eq_singleton_of {p : Int → Bool} :
    ∀ ys : List Int, ys.Nodup → ∀ y, y ∈ ys → p y = true →
      (∀ z ∈ ys, z ≠ y → p z = false) → ys.filter p = [y] := by
  intro ys
  induction ys with
  | nil => intro _ y hy; cases hy
  | cons z ys ih =>
    intro hnd y hy hpy hpz
    obtain ⟨hzn, hnd'⟩ := List.nodup_cons.mp hnd
    rw [List.filter_cons]
    by_cases hzy : z = y
    · subst hzy
      have hnil : ys.filter p = [] := by
        apply filter_eq_nil_of
        intro w hw
        exact hpz w (List.mem_cons_of_mem _ hw) (fun he => hzn (he ▸ hw))
      simp [hpy, hnil]
    · have hy' : y ∈ ys := by
        cases hy with
        | head => exact absurd rfl hzy
        | tail _ hm => exact hm
      have hpzf := hpz z (List.mem_cons_self z ys) hzy
      simp [hpzf]
      exact ih hnd' y hy' hpy
        (fun w hw hwy => hpz w (List.mem_cons_of_mem _ hw) hwy)

/-! ### The claims -/

/-- C1: on a completed run, the persisted `all_cars` rows are exactly the
per-year contributions in scan order, and every row contributed by the file
of year `y` carries `year = y`, whatever `year` value the parsed file held. -/
theorem c1_year_forced (dir : Dir) (s : Store)
    (h : (runScript dir s).outcome = .ok ()) :
    ∃ t, getTable (runScript dir s).store "all_cars" = some t ∧
      t.rows = rowsByYear dir t.cols (foundYears dir) ∧
      ∀ y ∈ foundYears dir, ∀ r ∈ (chunkDF dir y).rows,
        getVal "year" (alignRow t.cols r) = some (.int y) := by
  obtain ⟨hm, hne⟩ := runScript_ok_inv dir s h
  refine ⟨combinedDF dir, getTable_runScript_ok dir s hm hne, ?_, ?_⟩
  · exact chunksRows_map_chunk dir _ (foundYears dir)
  · intro y hy r hr
    have hyr : getVal "year" r = some (.int y) :=
      getVal_of_mem_setCol_rows (parsedAt dir y) "year" (.int y) r hr
    have hmem : "year" ∈ (combinedDF dir).cols := by
      rw [show (combinedDF dir).cols
            = unionColsList ((foundYears dir).map (chunkDF dir)) from rfl,
        mem_unionColsList]
      exact ⟨chunkDF dir y, List.mem_map_of_mem _ hy,
        self_mem_setCol_cols (parsedAt dir y) "year" (.int y)⟩
    rw [getVal_alignRow_of_mem _ _ hmem, hyr]
    rfl

/-- C2: when no scanned file exists, the run aborts with the no-data error
before any store mutation: the store is unchanged, and the trace holds no
connect, create-table or table-write event. -/
theorem c2_no_data_abort (dir : Dir) (s : Store)
    (h : ∀ y ∈ scannedYears, dir (file_path y) = none) :
    (runScript dir s).outcome = .error .noDataFound ∧
    (runScript dir s).store = s ∧
    (∀ p, Event.connect p ∉ (runScript dir s).trace) ∧
    Event.createTable ∉ (runScript dir s).trace ∧
    (∀ n t, Event.writeTable n t ∉ (runScript dir s).trace) := by
  have hm : noMalformed dir := by
    intro y hy
    rw [h y hy]
    simp
  have hfe : foundYears dir = [] := by
    apply filter_eq_nil_of
    intro y hy
    simp [isPresent, h y hy]
  rw [runScript_noData dir s hm hfe]
  refine ⟨rfl, rfl, ?_, ?_, ?_⟩
  · intro p hp
    obtain ⟨y, _, he⟩ := mem_skipEvents dir scannedYears _ hp
    cases he
  · intro hp
    obtain ⟨y, _, he⟩ := mem_skipEvents dir scannedYears _ hp
    cases he
  · intro n t hp
    obtain ⟨y, _, he⟩ := mem_skipEvents dir scannedYears _ hp
    cases he

/-- C3: the scanned years are exactly the integers 1992..2026, each looked up
as `{year}.csv` in the source folder, and the run reads no other file: two
directories that agree on those candidate paths yield identical runs. -/
theorem c3_scan_range :
    (∀ y : Int, y ∈ scannedYears ↔ (1992 ≤ y ∧ y ≤ 2026)) ∧
    (∀ (dir₁ dir₂ : Dir) (s : Store),
      (∀ y ∈ scannedYears, dir₁ (file_path y) = dir₂ (file_path y)) →
      runScript dir₁ s = runScript dir₂ s) := by
  constructor
  · intro y
    unfold scannedYears
    simp only [List.mem_map, List.mem_range]
    constructor
    · rintro ⟨i, hi, rfl⟩
      omega
    · intro hb
      exact ⟨(y - 1992).toNat, by omega, by omega⟩
  · intro dir₁ dir₂ s h
    have hp : ∀ ys : List Int,
        (∀ y ∈ ys, dir₁ (file_path y) = dir₂ (file_path y)) →
        processYears dir₁ ys = processYears dir₂ ys := by
      intro ys
      induction ys with
      | nil => intro _; rfl
      | cons y ys ih =>
        intro hh
        have hy := hh y (List.mem_cons_self y ys)
        have ih' := ih (fun z hz => hh z (List.mem_cons_of_mem _ hz))
        simp only [processYears, hy, ih']
    unfold runScript
    rw [hp scannedYears h]

/-- C4: the combined output is the concatenation of the per-file row blocks,
blocks taken in ascending-year order and rows kept in file order. -/
theorem c4_concat_order (dir : Dir) (s : Store)
    (h : (runScript dir s).outcome = .ok ()) :
    ∃ t, getTable (runScript dir s).store "all_cars" = some t ∧
      t.rows = rowsByYear dir t.cols (foundYears dir) ∧
      foundYears dir = scannedYears.filter (fun y => isPresent dir y) ∧
      List.Pairwise (fun a b : Int => a < b) (foundYears dir) := by
  obtain ⟨hm, hne⟩ := runScript_ok_inv dir s h
  refine ⟨combinedDF dir, getTable_runScript_ok dir s hm hne,
    chunksRows_map_chunk dir _ (foundYears dir), rfl, ?_⟩
  exact List.Pairwise.sublist (List.filter_sublist _) scannedYears_sorted

/-- C5: a second run on the unchanged directory completes and leaves the very
same `all_cars` table, because the write replaces rather than appends. -/
theorem c5_idempotent (dir : Dir) (s : Store)
    (h : (runScript dir s).outcome = .ok ()) :
    (runScript dir (runScript dir s).store).outcome = .ok () ∧
    getTable (runScript dir (runScript dir s).store).store "all_cars"
      = getTable (runScript dir s).store "all_cars" ∧
    getTable (runScript dir s).store "all_cars" = some (combinedDF dir) := by
  obtain ⟨hm, hne⟩ := runScript_ok_inv dir s h
  have h1 := getTable_runScript_ok dir s hm hne
  have h2 := getTable_runScript_ok dir (runScript dir s).store hm hne
  refine ⟨?_, by rw [h1, h2], h1⟩
  rw [runScript_eq_ok dir (runScript dir s).store hm hne]

/-- C6: a scanned year whose file is absent yields exactly one skip notice
`File {year}.csv not found, skipping.` in the trace, and such an absence is
never fatal: whenever anything at all was found the run still completes. -/
theorem c6_skip_notice (dir : Dir) (s : Store) (y : Int)
    (hm : noMalformed dir) (hy : y ∈ scannedYears)
    (hmiss : dir (file_path y) = none) :
    countEv (.consoleOut (skipMsg y)) (runScript dir s).trace = 1 ∧
    (foundYears dir ≠ [] → (runScript dir s).outcome = .ok ()) := by
  have hone : countEv (.consoleOut (skipMsg y)) (skipEvents dir scannedYears) = 1 := by
    apply countEv_skipEvents_one dir y scannedYears scannedYears_nodup hy
      (by simp [isMissing, hmiss])
    intro z hz
    by_cases hzy : z = y
    · exact Or.inl hzy
    · exact Or.inr (skipMsg_inj_on_scanned z hz y hy hzy)
  by_cases hne : foundYears dir = []
  · rw [runScript_noData dir s hm hne]
    exact ⟨hone, fun hab => absurd hne hab⟩
  · rw [runScript_eq_ok dir s hm hne]
    refine ⟨?_, fun _ => rfl⟩
    rw [countEv_append, hone, countEv_tailEvents dir y hy]

/-- C7: the persisted columns are exactly the union of the parsed files'
columns plus the forced `year`; the declared `CREATE TABLE` schema does not
constrain the write, so the final table is the same whatever the store held. -/
theorem c7_persisted_schema (dir : Dir) (s : Store)
    (h : (runScript dir s).outcome = .ok ()) :
    ∃ t, getTable (runScript dir s).store "all_cars" = some t ∧
      (∀ c, c ∈ t.cols ↔
        (c = "year" ∨ ∃ y ∈ foundYears dir, c ∈ (parsedAt dir y).cols)) ∧
      (∀ s' : Store, getTable (runScript dir s').store "all_cars" = some t) := by
  obtain ⟨hm, hne⟩ := runScript_ok_inv dir s h
  refine ⟨combinedDF dir, getTable_runScript_ok dir s hm hne, ?_,
    fun s' => getTable_runScript_ok dir s' hm hne⟩
  intro c
  rw [show (combinedDF dir).cols
        = unionColsList ((foundYears dir).map (chunkDF dir)) from rfl,
    mem_unionColsList]
  constructor
  · rintro ⟨df, hdf, hc⟩
    rw [List.mem_map] at hdf
    obtain ⟨y, hy, rfl⟩ := hdf
    rw [show chunkDF dir y = (parsedAt dir y).setCol "year" (.int y) from rfl,
      mem_setCol_cols_iff] at hc
    rcases hc with hc | rfl
    · exact Or.inr ⟨y, hy, hc⟩
    · exact Or.inl rfl
  · rintro (rfl | ⟨y, hy, hc⟩)
    · cases hfy : foundYears dir with
      | nil => exact absurd hfy hne
      | cons y0 l =>
        exact ⟨chunkDF dir y0, List.mem_map_of_mem _ (List.mem_cons_self y0 l),
          self_mem_setCol_cols (parsedAt dir y0) "year" (.int y0)⟩
    · exact ⟨chunkDF dir y, List.mem_map_of_mem _ hy,
        (mem_setCol_cols_iff (parsedAt dir y) "year" c (.int y)).mpr (Or.inl hc)⟩

/-- C8: an unparseable present file aborts the run with a parse error raised
inside the scan loop, before the store is opened: the store is unchanged and
the trace holds no connect, create-table or table-write event. -/
theorem c8_malformed_abort (dir : Dir) (s : Store)
    (h : ∃ y ∈ scannedYears, dir (file_path y) = some .malformed) :
    (∃ y, (runScript dir s).outcome = .error (.parseError y) ∧
      dir (file_path y) = some .malformed) ∧
    (runScript dir s).store = s ∧
    (∀ p, Event.connect p ∉ (runScript dir s).trace) ∧
    Event.createTable ∉ (runScript dir s).trace ∧
    (∀ n t, Event.writeTable n t ∉ (runScript dir s).trace) := by
  obtain ⟨evs, y, heq, hmal, htr⟩ := runScript_malformed dir s h
  rw [heq]
  refine ⟨⟨y, rfl, hmal⟩, rfl, ?_, ?_, ?_⟩
  · intro p hp
    obtain ⟨z, _, he⟩ := htr _ hp
    cases he
  · intro hp
    obtain ⟨z, _, he⟩ := htr _ hp
    cases he
  · intro n t hp
    obtain ⟨z, _, he⟩ := htr _ hp
    cases he

/-- C9: a present file that parses to zero rows still counts as found: alone
in the range it suffices to avoid the no-data abort, the run completes, and
the table ends up with zero rows. -/
theorem c9_header_only_counts (dir : Dir) (s : Store) (y : Int)
    (df : DataFrame) (hy : y ∈ scannedYears)
    (hf : dir (file_path y) = some (.parsed df)) (hrows : df.rows = [])
    (hoth : ∀ z ∈ scannedYears, z ≠ y → dir (file_path z) = none) :
    (runScript dir s).outcome = .ok () ∧
    ∃ t, getTable (runScript dir s).store "all_cars" = some t ∧
      t.rows = [] := by
  have hm : noMalformed dir := by
    intro z hz
    by_cases hzy : z = y
    · subst hzy
      rw [hf]
      simp
    · rw [hoth z hz hzy]
      simp
  have hfy : foundYears dir = [y] := by
    apply filter_eq_singleton_of scannedYears scannedYears_nodup y hy
      (by simp [isPresent, hf])
    intro z hz hzy
    simp [isPresent, hoth z hz hzy]
  have hne : foundYears dir ≠ [] := by
    rw [hfy]
    simp
  refine ⟨by rw [runScript_eq_ok dir s hm hne],
    combinedDF dir, getTable_runScript_ok dir s hm hne, ?_⟩
  show (combinedDF dir).rows = []
  unfold combinedDF
  rw [hfy]
  simp [concatDFs, chunksRows, chunkDF, DataFrame.setCol, parsedAt, hf, hrows]

/-- C10: a present file lacking a `year` column is no error: the run still
completes, the forced assignment appends the column, and each of its rows
reaches the table carrying the filename year next to the original cells. -/
theorem c10_absent_year_column (dir : Dir) (s : Store) (y : Int)
    (df : DataFrame) (hm : noMalformed dir) (hy : y ∈ scannedYears)
    (hf : dir (file_path y) = some (.parsed df))
    (hnc : "year" ∉ df.cols) :
    (runScript dir s).outcome = .ok () ∧
    ∃ t, getTable (runScript dir s).store "all_cars" = some t ∧
      (chunkDF dir y).cols = df.cols ++ ["year"] ∧
      ∀ r ∈ df.rows,
        alignRow t.cols (setVal "year" (.int y) r) ∈ t.rows ∧
        getVal "year" (alignRow t.cols (setVal "year" (.int y) r))
          = some (.int y) ∧
        ∀ c ∈ df.cols, ∀ v, getVal c r = some v →
          getVal c (alignRow t.cols (setVal "year" (.int y) r)) = some v := by
  have hfymem : y ∈ foundYears dir :=
    List.mem_filter.mpr ⟨hy, by simp [isPresent, hf]⟩
  have hne : foundYears dir ≠ [] := fun he => by
    rw [he] at hfymem
    cases hfymem
  have hpa : parsedAt dir y = df := by simp [parsedAt, hf]
  have hcols : (chunkDF dir y).cols = df.cols ++ ["year"] := by
    simp [chunkDF, hpa, DataFrame.setCol, hnc]
  have hyu : "year" ∈ (combinedDF dir).cols := by
    rw [show (combinedDF dir).cols
          = unionColsList ((foundYears dir).map (chunkDF dir)) from rfl,
      mem_unionColsList]
    exact ⟨chunkDF dir y, List.mem_map_of_mem _ hfymem,
      self_mem_setCol_cols (parsedAt dir y) "year" (.int y)⟩
  refine ⟨by rw [runScript_eq_ok dir s hm hne],
    combinedDF dir, getTable_runScript_ok dir s hm hne, hcols, ?_⟩
  intro r hr
  have hchunkrow : setVal "year" (.int y) r ∈ (chunkDF dir y).rows := by
    rw [show (chunkDF dir y).rows
          = (parsedAt dir y).rows.map (setVal "year" (.int y)) from rfl, hpa]
    exact List.mem_map_of_mem _ hr
  refine ⟨?_, ?_, ?_⟩
  · rw [show (combinedDF dir).rows
        = chunksRows (combinedDF dir).cols ((foundYears dir).map (chunkDF dir))
        from rfl,
      chunksRows_map_chunk]
    exact mem_rowsByYear_of dir _ (foundYears dir) y hfymem _
      (List.mem_map_of_mem _ hchunkrow)
  · rw [getVal_alignRow_of_mem _ _ hyu, getVal_setVal_self]
    rfl
  · intro c hc v hv
    have hcy : c ≠ "year" := fun he => hnc (he ▸ hc)
    have hcu : c ∈ (combinedDF dir).cols := by
      rw [show (combinedDF dir).cols
            = unionColsList ((foundYears dir).map (chunkDF dir)) from rfl,
        mem_unionColsList]
      refine ⟨chunkDF dir y, List.mem_map_of_mem _ hfymem, ?_⟩
      rw [show chunkDF dir y = (parsedAt dir y).setCol "year" (.int y) from rfl,
        mem_setCol_cols_iff, hpa]
      exact Or.inl hc
    rw [getVal_alignRow_of_mem _ _ hcu, getVal_setVal_ne c "year" hcy, hv]
    rfl

/-! ### Concrete directories used to instantiate the claims -/

def dfD : DataFrame :=
  { cols := ["make", "model", "body_styles", "year"],
    rows := [[("make", .str "Toyota"), ("model", .str "Corolla"),
              ("body_styles", .str "Sedan"), ("year", .int 1999)]] }

def dirD : Dir := fun p =>
  if p = file_path 2020 then some (.parsed dfD) else none

def dfB1992 : DataFrame :=
  { cols := ["make", "model", "body_styles"],
    rows := [[("make", .str "Acura"), ("model", .str "Legend"),
              ("body_styles", .str "Sedan")]] }

def dfB2026 : DataFrame :=
  { cols := ["make", "model", "body_styles"],
    rows := [[("make", .str "Tesla"), ("model", .str "Model 3"),
              ("body_styles", .str "Sedan")]] }

def dirB : Dir := fun p =>
  if p = file_path 1992 then some (.parsed dfB1992)
  else if p = file_path 2026 then some (.parsed dfB2026)
  else none

def emptyDir : Dir := fun _ => none

def dir1991 : Dir := fun p =>
  if p = file_path 1991 then some (.parsed dfB1992) else none

def dirMal : Dir := fun p =>
  if p = file_path 2000 then some .malformed else none

def dfHdr : DataFrame :=
  { cols := ["make", "model", "body_styles"], rows := [] }

def dirHdr : Dir := fun p =>
  if p = file_path 2005 then some (.parsed dfHdr) else none

def dfNY : DataFrame :=
  { cols := ["make", "model", "body_styles", "color"],
    rows := [[("make", .str "Ford"), ("model", .str "F150"),
              ("body_styles", .str "Pickup"), ("color", .str "Red")]] }

def dirNY : Dir := fun p =>
  if p = file_path 2010 then some (.parsed dfNY) else none

/-! ### Witnesses -/

/-- C1 witness: Scenario D, a `2020.csv` whose own `year` column holds 1999;
the persisted row carries `year = 2020`. -/
theorem c1_witness :
    (runScript dirD []).outcome = .ok () ∧
    (∃ t, getTable (runScript dirD []).store "all_cars" = some t ∧
      t.rows = rowsByYear dirD t.cols (foundYears dirD) ∧
      ∀ y ∈ foundYears dirD, ∀ r ∈ (chunkDF dirD y).rows,
        getVal "year" (alignRow t.cols r) = some (.int y)) ∧
    (combinedDF dirD).rows.map (getVal "year") = [some (.int 2020)] :=
  ⟨rfl, c1_year_forced dirD [] rfl, rfl⟩

/-- C2 witness: Scenario C, the empty directory. -/
theorem c2_witness :
    (∀ y ∈ scannedYears, emptyDir (file_path y) = none) ∧
    ((runScript emptyDir []).outcome = .error .noDataFound ∧
     (runScript emptyDir []).store = [] ∧
     (∀ p, Event.connect p ∉ (runScript emptyDir []).trace) ∧
     Event.createTable ∉ (runScript emptyDir []).trace ∧
     (∀ n t, Event.writeTable n t ∉ (runScript emptyDir []).trace)) :=
  ⟨fun _ _ => rfl, c2_no_data_abort emptyDir [] (fun _ _ => rfl)⟩

/-- C3 witness: a directory whose only file is the out-of-range `1991.csv`
runs exactly like the empty directory. -/
theorem c3_witness :
    (∀ y ∈ scannedYears, emptyDir (file_path y) = dir1991 (file_path y)) ∧
    runScript emptyDir [] = runScript dir1991 [] :=
  ⟨by decide, c3_scan_range.2 emptyDir dir1991 [] (by decide)⟩

/-- C4 witness: Scenario B, one-row `1992.csv` and `2026.csv`; the output has
exactly the two rows with years 1992 then 2026, in that order. -/
theorem c4_witness :
    (runScript dirB []).outcome = .ok () ∧
    (∃ t, getTable (runScript dirB []).store "all_cars" = some t ∧
      t.rows = rowsByYear dirB t.cols (foundYears dirB) ∧
      foundYears dirB = scannedYears.filter (fun y => isPresent dirB y) ∧
      List.Pairwise (fun a b : Int => a < b) (foundYears dirB)) ∧
    (combinedDF dirB).rows.map (getVal "year")
      = [some (.int 1992), some (.int 2026)] :=
  ⟨rfl, c4_concat_order dirB [] rfl, rfl⟩

/-- C5 witness: running twice on the Scenario D directory leaves the same
table. -/
theorem c5_witness :
    (runScript dirD []).outcome = .ok () ∧
    ((runScript dirD (runScript dirD []).store).outcome = .ok () ∧
     getTable (runScript dirD (runScript dirD []).store).store "all_cars"
       = getTable (runScript dirD []).store "all_cars" ∧
     getTable (runScript dirD []).store "all_cars" = some (combinedDF dirD)) :=
  ⟨rfl, c5_idempotent dirD [] rfl⟩

/-- C6 witness: in the Scenario D directory, `1993.csv` is absent; its skip
notice appears exactly once and the run still completes. -/
theorem c6_witness :
    (noMalformed dirD ∧ (1993 : Int) ∈ scannedYears ∧
      dirD (file_path 1993) = none) ∧
    (countEv (.consoleOut (skipMsg 1993)) (runScript dirD []).trace = 1 ∧
     (foundYears dirD ≠ [] → (runScript dirD []).outcome = .ok ())) :=
  ⟨⟨by unfold noMalformed; decide, by decide, rfl⟩,
   c6_skip_notice dirD [] 1993 (by unfold noMalformed; decide) (by decide) rfl⟩

/-- C7 witness: a `2010.csv` with an extra `color` column; the persisted
schema is the file columns plus `year`, not the declared four. -/
theorem c7_witness :
    (runScript dirNY []).outcome = .ok () ∧
    (∃ t, getTable (runScript dirNY []).store "all_cars" = some t ∧
      (∀ c, c ∈ t.cols ↔
        (c = "year" ∨ ∃ y ∈ foundYears dirNY, c ∈ (parsedAt dirNY y).cols)) ∧
      (∀ s' : Store, getTable (runScript dirNY s').store "all_cars" = some t)) ∧
    (combinedDF dirNY).cols = ["make", "model", "body_styles", "color", "year"] :=
  ⟨rfl, c7_persisted_schema dirNY [] rfl, rfl⟩

/-- C8 witness: a directory whose `2000.csv` is unparseable. -/
theorem c8_witness :
    (∃ y ∈ scannedYears, dirMal (file_path y) = some .malformed) ∧
    ((∃ y, (runScript dirMal []).outcome = .error (.parseError y) ∧
        dirMal (file_path y) = some .malformed) ∧
     (runScript dirMal []).store = [] ∧
     (∀ p, Event.connect p ∉ (runScript dirMal []).trace) ∧
     Event.createTable ∉ (runScript dirMal []).trace ∧
     (∀ n t, Event.writeTable n t ∉ (runScript dirMal []).trace)) :=
  ⟨by decide, c8_malformed_abort dirMal [] (by decide)⟩

/-- C9 witness: a header-only `2005.csv` as the only file; the run completes
with an empty table. -/
theorem c9_witness :
    ((2005 : Int) ∈ scannedYears ∧
      dirHdr (file_path 2005) = some (.parsed dfHdr) ∧
      dfHdr.rows = [] ∧
      (∀ z ∈ scannedYears, z ≠ 2005 → dirHdr (file_path z) = none)) ∧
    ((runScript dirHdr []).outcome = .ok () ∧
     ∃ t, getTable (runScript dirHdr []).store "all_cars" = some t ∧
       t.rows = []) :=
  ⟨⟨by decide, rfl, rfl, by decide⟩,
   c9_header_only_counts dirHdr [] 2005 dfHdr (by decide) rfl rfl (by decide)⟩

/-- C10 witness: a `2010.csv` with no `year` column; the run completes and
its row reaches the table with `year = 2010` next to the original cells. -/
theorem c10_witness :
    (noMalformed dirNY ∧ (2010 : Int) ∈ scannedYears ∧
      dirNY (file_path 2010) = some (.parsed dfNY) ∧
      "year" ∉ dfNY.cols) ∧
    ((runScript dirNY []).outcome = .ok () ∧
     ∃ t, getTable (runScript dirNY []).store "all_cars" = some t ∧
       (chunkDF dirNY 2010).cols = dfNY.cols ++ ["year"] ∧
       ∀ r ∈ dfNY.rows,
         alignRow t.cols (setVal "year" (.int 2010) r) ∈ t.rows ∧
         getVal "year" (alignRow t.cols (setVal "year" (.int 2010) r))
           = some (.int 2010) ∧
         ∀ c ∈ dfNY.cols, ∀ v, getVal c r = some v →
           getVal c (alignRow t.cols (setVal "year" (.int 2010) r)) = some v) :=
  ⟨⟨by unfold noMalformed; decide, by decide, rfl, by decide⟩,
   c10_absent_year_column dirNY [] 2010 dfNY (by unfold noMalformed; decide)
     (by decide) rfl (by decide)⟩

end CombineCsv
